import Mathlib

/-!
Shallow embedding of `UTransformerComponent`
(src/RuntimeTransformer/Source/RuntimeTransformer/Private/TransformerComponent.cpp).

Conventions of the embedding:
* `USceneComponent*` pointers are component ids (`Nat`); a nullable pointer is
  `Option Nat` (with `none` for `nullptr`, e.g. an incoming replicated reference
  that did not resolve on a proxy).
* `AActor*` actors are actor ids (`Nat`); a component's owner is given by the
  state field `ownerOf`, an actor's root component by `rootOf`.
* `FTransform` is modelled with exact rationals: a quaternion, a location
  vector and a scale vector.  Only construction and reset matter for the
  verified properties, so no quaternion arithmetic is needed.
* Engine timers are modelled by `Bool` "timer active" flags plus explicit step
  functions for the timer callbacks (`CheckUnreplicatedActors`,
  `ResyncSelection`); the fixed intervals of the source are kept as rational
  constants.
* `ShouldSelect` is a BlueprintNativeEvent declared in the plugin's header
  (not part of src/); its result is modelled by the per-state predicate
  `shouldSelect`.  The default implementation accepts everything, which is the
  `fun _ => true` used in the concrete states below.
* RPCs (`Server...`/`Multicast...`) are modelled by the state transition the
  receiving participant performs; an outgoing request that does not mutate
  local state is surfaced as a `Bool` "message sent" component of the result.
* Purely visual / world side effects (gizmo actor spawning, SetWorldTransform
  on engine components, log output) have no counterpart in the modelled state;
  the selection list, domain, accumulators, clone bookkeeping and resync flags
  are modelled exactly.
-/

/-- `ETransformationType` (header enum; the four values used by the .cpp). -/
inductive ETransformationType
  | TT_NoTransform
  | TT_Translation
  | TT_Rotation
  | TT_Scale
deriving DecidableEq

/-- `ETransformationDomain` (header enum; `TD_None` plus the axis/plane values,
which the .cpp never inspects individually). -/
inductive ETransformationDomain
  | TD_None
  | TD_X_Axis
  | TD_Y_Axis
  | TD_Z_Axis
  | TD_XY_Plane
  | TD_YZ_Plane
  | TD_XZ_Plane
  | TD_XYZ
deriving DecidableEq

/-- Exact-arithmetic stand-in for `FVector`. -/
structure Vec3 where
  x : ℚ
  y : ℚ
  z : ℚ
deriving DecidableEq

def Vec3.zero : Vec3 := ⟨0, 0, 0⟩

def Vec3.one : Vec3 := ⟨1, 1, 1⟩

/-- Exact-arithmetic stand-in for `FQuat`. -/
structure Quat where
  w : ℚ
  x : ℚ
  y : ℚ
  z : ℚ
deriving DecidableEq

def Quat.identity : Quat := ⟨1, 0, 0, 0⟩

/-- Exact-arithmetic stand-in for `FTransform`. -/
structure FTransform where
  rotation : Quat
  location : Vec3
  scale3D : Vec3
deriving DecidableEq

/-- `FTransform()` — identity rotation, zero translation, unit scale. -/
def FTransform.identityT : FTransform :=
  { rotation := Quat.identity, location := Vec3.zero, scale3D := Vec3.one }

/-- The value produced by `ResetDeltaTransform`: identity with zero scale. -/
def zeroScaleIdentity : FTransform :=
  { FTransform.identityT with scale3D := Vec3.zero }

/-- `UTransformerComponent::ResetDeltaTransform`:
`Transform = FTransform(); Transform.SetScale3D(FVector::ZeroVector);`. -/
def resetDeltaTransform (_t : FTransform) : FTransform := zeroScaleIdentity

/-- Focus / unfocus notifications fired through the `IFocusableObject`
interface by `Select` / `Deselect`. -/
inductive FocusEvent
  | focus (c : Nat)
  | unfocus (c : Nat)
deriving DecidableEq

/-- One entry of the `TArray<FHitResult>` a world trace returns, restricted to
the fields the .cpp reads. -/
structure Hit where
  /-- `GetActor()`. -/
  actor : Nat
  /-- `GetComponent()` / `Component`. -/
  component : Nat
  /-- whether `Cast<ABaseGizmo>(GetActor())` succeeds. -/
  isGizmo : Bool
  /-- `GetActor()->IsSupportedForNetworking()` (false also models a null actor). -/
  actorNetSupported : Bool
  /-- `Component.IsValid() && Component->IsSupportedForNetworking()`. -/
  componentNetSupported : Bool
deriving DecidableEq

/-- The state of one `UTransformerComponent` instance (the fields of the class
that the verified claims touch, plus the world-resolution functions the
embedding needs in place of engine pointers). -/
structure CState where
  selectedComponents : List Nat
  currentDomain : ETransformationDomain
  currentTransformation : ETransformationType
  accumulatedDeltaTransform : FTransform
  networkDeltaTransform : FTransform
  bToggleSelectedInMultiSelection : Bool
  bComponentBased : Bool
  bIgnoreNonReplicatedObjects : Bool
  bResyncSelection : Bool
  /-- `ResyncSelectionTimerHandle.IsValid()`. -/
  resyncTimerActive : Bool
  unreplicatedComponentClones : List Nat
  /-- `CheckUnrepTimerHandle.IsValid()`. -/
  checkUnrepTimerActive : Bool
  /-- the actor id of `Gizmo`, when one exists. -/
  gizmoActor : Option Nat
  /-- `Gizmo->GetTransformationDomain(componentHit)`. -/
  gizmoDomainOf : Nat → ETransformationDomain
  /-- `ShouldSelect(owner, component)` collapsed onto the component id. -/
  shouldSelect : Nat → Bool
  /-- `Component->GetOwner()`. -/
  ownerOf : Nat → Nat
  /-- `Actor->GetRootComponent()`. -/
  rootOf : Nat → Nat

/-- `UTransformerComponent::AddComponent_Internal`: `Find`; if absent,
`Emplace` + `Select` (focus); if present and the toggle policy is on,
`DeselectComponentAtIndex_Internal` (unfocus + `RemoveAt` of the found index,
i.e. erasure of the first occurrence). -/
def addComponentInternal (toggle : Bool) (l : List Nat) (c : Nat) :
    List Nat × List FocusEvent :=
  if c ∈ l then
    if toggle then (l.erase c, [FocusEvent.unfocus c]) else (l, [])
  else
    (l ++ [c], [FocusEvent.focus c])

/-- `UTransformerComponent::DeselectComponent_Internal`: `Find`; if present,
`DeselectComponentAtIndex_Internal` (unfocus + removal of that index). -/
def deselectComponentInternal (l : List Nat) (c : Nat) :
    List Nat × List FocusEvent :=
  if c ∈ l then (l.erase c, [FocusEvent.unfocus c]) else (l, [])

/-- The loop of `UTransformerComponent::DeselectAll`: iterate over a copy of
`SelectedComponents`, deselecting each element from the live list. -/
def deselectAllLoop : List Nat → List Nat → List Nat × List FocusEvent
  | cur, [] => (cur, [])
  | cur, i :: rest =>
    let step := deselectComponentInternal cur i
    let restRes := deselectAllLoop step.1 rest
    (restRes.1, step.2 ++ restRes.2)

/-- `UTransformerComponent::DeselectAll` (with `bDestroyDeselected = false`;
destruction only touches world actors, never the modelled state): deselect
every member of a copy of the list, then `SelectedComponents.Empty()`. -/
def deselectAll (s : CState) : CState × List FocusEvent :=
  let evs := (deselectAllLoop s.selectedComponents s.selectedComponents).2
  ({ s with selectedComponents := [] }, evs)

/-- Shared body of `SelectComponent` / `SelectActor` after their null checks:
`ShouldSelect` gate, optional `DeselectAll` when not appending,
`AddComponent_Internal`, `UpdateGizmoPlacement` (no modelled effect). -/
def selectCore (s : CState) (c : Nat) (append : Bool) :
    CState × List FocusEvent :=
  if s.shouldSelect c then
    let base := if append then (s, ([] : List FocusEvent)) else deselectAll s
    let added := addComponentInternal base.1.bToggleSelectedInMultiSelection
      base.1.selectedComponents c
    ({ base.1 with selectedComponents := added.1 }, base.2 ++ added.2)
  else (s, [])

/-- `UTransformerComponent::SelectComponent`. -/
def selectComponent (s : CState) (c : Option Nat) (append : Bool) :
    CState × List FocusEvent :=
  match c with
  | none => (s, [])
  | some comp => selectCore s comp append

/-- `UTransformerComponent::SelectActor` (selects the actor's root component). -/
def selectActor (s : CState) (a : Option Nat) (append : Bool) :
    CState × List FocusEvent :=
  match a with
  | none => (s, [])
  | some act => selectCore s (s.rootOf act) append

/-- The loop of `UTransformerComponent::SelectMultipleComponents`: skip null or
rejected entries; on the first accepted entry with `bAppendToList == false`,
`DeselectAll` once and flip the flag; `AddComponent_Internal` each accepted
entry; remember whether any entry was valid. -/
def selectMultipleLoop :
    CState → Bool → Bool → List FocusEvent → List (Option Nat) →
    CState × List FocusEvent × Bool
  | s, _, bValid, evs, [] => (s, evs, bValid)
  | s, append, bValid, evs, c :: rest =>
    match c with
    | none => selectMultipleLoop s append bValid evs rest
    | some comp =>
      if s.shouldSelect comp then
        let base := if append then (s, ([] : List FocusEvent)) else deselectAll s
        let added := addComponentInternal base.1.bToggleSelectedInMultiSelection
          base.1.selectedComponents comp
        selectMultipleLoop { base.1 with selectedComponents := added.1 }
          true true (evs ++ base.2 ++ added.2) rest
      else selectMultipleLoop s append bValid evs rest

/-- `UTransformerComponent::SelectMultipleComponents`. -/
def selectMultipleComponents (s : CState) (comps : List (Option Nat))
    (append : Bool) : CState × List FocusEvent :=
  let res := selectMultipleLoop s append false [] comps
  (res.1, res.2.1)

/-- `UTransformerComponent::SetDomain` (the gizmo progress-state call has no
modelled effect). -/
def setDomain (s : CState) (dm : ETransformationDomain) : CState :=
  { s with currentDomain := dm }

/-- `UTransformerComponent::ClearDomain`: reset the accumulated (frame-level
snapping) delta transform, then set the domain to `TD_None`. -/
def clearDomain (s : CState) : CState :=
  setDomain
    { s with accumulatedDeltaTransform :=
        resetDeltaTransform s.accumulatedDeltaTransform }
    ETransformationDomain.TD_None

/-- `UTransformerComponent::SetTransformationType`: early-return when the kind
is unchanged; otherwise store the kind, reset the accumulated delta transform
and `UpdateGizmoPlacement` (no modelled effect). -/
def setTransformationType (s : CState) (t : ETransformationType) : CState :=
  if s.currentTransformation = t then s
  else
    { s with
        currentTransformation := t,
        accumulatedDeltaTransform :=
          resetDeltaTransform s.accumulatedDeltaTransform }

/-- `UTransformerComponent::ReplicateFinishTransform`, effect on the invoking
participant: `ServerClearDomain` (→ `MulticastClearDomain` → `ClearDomain`
locally), `ServerApplyTransform(NetworkDeltaTransform)` (whose multicast skips
the locally-controlled instance), then reset `NetworkDeltaTransform`. -/
def replicateFinishTransform (s : CState) : CState :=
  let s1 := clearDomain s
  { s1 with networkDeltaTransform :=
      resetDeltaTransform s1.networkDeltaTransform }

/-- `UTransformerComponent::FilterHits`: when `bIgnoreNonReplicatedObjects` is
set, keep gizmo hits, and otherwise keep a hit only if its actor supports
networking and (in component-based mode) its component does too. -/
def filterHits (s : CState) (hits : List Hit) : List Hit :=
  if s.bIgnoreNonReplicatedObjects then
    hits.filter fun h =>
      h.isGizmo ||
        (h.actorNetSupported && (!s.bComponentBased || h.componentNetSupported))
  else hits

/-- First loop of `HandleTracedObjects`: scan the hits for this component's own
gizmo; on a match, `SetDomain(Gizmo->GetTransformationDomain(...))` and stop
with success only if the resulting domain is not `TD_None`. -/
def handleGizmoHits (s : CState) : List Hit → CState × Bool
  | [] => (s, false)
  | h :: rest =>
    if s.gizmoActor = some h.actor then
      let s1 := setDomain s (s.gizmoDomainOf h.component)
      if s1.currentDomain = ETransformationDomain.TD_None then
        handleGizmoHits s1 rest
      else (s1, true)
    else handleGizmoHits s rest

/-- Second loop of `HandleTracedObjects`: the first non-gizmo hit is selected
(component in component-based mode, otherwise its actor) and the function
returns true; gizmo hits of other components are skipped. -/
def handleSelectHits (s : CState) (append : Bool) :
    List Hit → CState × List FocusEvent × Bool
  | [] => (s, [], false)
  | h :: rest =>
    if h.isGizmo then handleSelectHits s append rest
    else if s.bComponentBased then
      let res := selectComponent s (some h.component) append
      (res.1, res.2, true)
    else
      let res := selectActor s (some h.actor) append
      (res.1, res.2, true)

/-- `UTransformerComponent::HandleTracedObjects`: `ClearDomain`, then the gizmo
scan, then the selection scan. -/
def handleTracedObjects (s : CState) (hits : List Hit) (append : Bool) :
    CState × List FocusEvent × Bool :=
  let s0 := clearDomain s
  let giz := handleGizmoHits s0 hits
  if giz.2 then (giz.1, [], true)
  else handleSelectHits giz.1 append hits

/-- `UTransformerComponent::TraceByObjectTypes`: the world line trace is
abstracted into its result list `hits`; `LineTraceMultiByObjectType` returns
false (and nothing further happens) exactly when there are no hits. -/
def traceByObjectTypes (s : CState) (hits : List Hit) (append : Bool) :
    CState × List FocusEvent × Bool :=
  if hits.isEmpty then (s, [], false)
  else handleTracedObjects s (filterHits s hits) append

/-- `UTransformerComponent::TraceByChannel` (same post-trace logic as
`TraceByObjectTypes`; the channel only parameterises the external trace). -/
def traceByChannel (s : CState) (hits : List Hit) (append : Bool) :
    CState × List FocusEvent × Bool :=
  if hits.isEmpty then (s, [], false)
  else handleTracedObjects s (filterHits s hits) append

/-- `UTransformerComponent::TraceByProfile` (same post-trace logic again). -/
def traceByProfile (s : CState) (hits : List Hit) (append : Bool) :
    CState × List FocusEvent × Bool :=
  if hits.isEmpty then (s, [], false)
  else handleTracedObjects s (filterHits s hits) append

/-- `UTransformerComponent::MouseTraceByObjectTypes`.  `mouseOk` is the result
of `GetMouseStartEndPoints`.  Result: (state, whether `ServerDeselectAll(false)`
was requested, return value).  Returns `bTraceSuccessful` whenever the mouse
deprojection succeeded. -/
def mouseTraceByObjectTypes (s : CState) (mouseOk : Bool) (hits : List Hit)
    (append : Bool) : CState × Bool × Bool :=
  if mouseOk then
    let res := traceByObjectTypes s hits append
    if !res.2.2 && !append then (res.1, true, res.2.2)
    else (res.1, false, res.2.2)
  else (s, false, false)

/-- `UTransformerComponent::MouseTraceByChannel`.  The function body computes
`bTraceSuccessful` but ends with `return false;` on every path. -/
def mouseTraceByChannel (s : CState) (mouseOk : Bool) (hits : List Hit)
    (append : Bool) : CState × Bool × Bool :=
  if mouseOk then
    let res := traceByChannel s hits append
    if !res.2.2 && !append then (res.1, true, false)
    else (res.1, false, false)
  else (s, false, false)

/-- `UTransformerComponent::MouseTraceByProfile` (returns the trace result,
like the object-types variant). -/
def mouseTraceByProfile (s : CState) (mouseOk : Bool) (hits : List Hit)
    (append : Bool) : CState × Bool × Bool :=
  if mouseOk then
    let res := traceByProfile s hits append
    if !res.2.2 && !append then (res.1, true, res.2.2)
    else (res.1, false, res.2.2)
  else (s, false, false)

/-- `UTransformerComponent::ServerTraceByObjectTypes_Implementation`: run the
trace on the authority; on a failed non-append trace, `DeselectAll(false)`;
then broadcast the domain and the selected component list
(`MulticastSetDomain` + `MulticastSetSelectedComponents`).  The second result
is the broadcast selection payload as it leaves the authority. -/
def serverTraceByObjectTypes (s : CState) (hits : List Hit) (append : Bool) :
    CState × List (Option Nat) :=
  let res := traceByObjectTypes s hits append
  let s2 := if !res.2.2 && !append then (deselectAll res.1).1 else res.1
  (s2, s2.selectedComponents.map some)

/-- `UTransformerComponent::MulticastSetSelectedComponents_Implementation`:
`DeselectAll()`, `SelectMultipleComponents(Components, true)`, set
`bResyncSelection` to whether the incoming count differs from the locally
selected count, and if so start the fixed-interval (0.1s) resync timer unless
it is already running. -/
def multicastSetSelectedComponents (s : CState) (comps : List (Option Nat)) :
    CState × List FocusEvent :=
  let des := deselectAll s
  let selRes := selectMultipleComponents des.1 comps true
  let resync := comps.length != selRes.1.selectedComponents.length
  ({ selRes.1 with
      bResyncSelection := resync,
      resyncTimerActive := if resync then true else selRes.1.resyncTimerActive },
   des.2 ++ selRes.2)

/-- Interval of the resync poll (`SetTimer(..., 0.1f, true, 0.0f)`). -/
def resyncPollInterval : ℚ := 1 / 10

/-- `UTransformerComponent::ResyncSelection` (the resync timer callback): while
`bResyncSelection` holds, send `ServerSyncSelectedComponents` (the `Bool`
result); once it is clear, stop the timer.  Invoked only while
`resyncTimerActive`. -/
def resyncSelection (s : CState) : CState × Bool :=
  if s.bResyncSelection then (s, true)
  else ({ s with resyncTimerActive := false }, false)

/-- `CloneReplicationCheckFrequency` (constructor default `0.05f`). -/
def cloneReplicationCheckFrequency : ℚ := 5 / 100

/-- `MinimumCloneReplicationTime` (constructor default `0.01f`). -/
def minimumCloneReplicationTime : ℚ := 1 / 100

/-- `UTransformerComponent::CheckUnreplicatedActors`, list update: count the
pending clones that are ready (`HasBegunPlay && IsSupportedForNetworking`,
abstracted into `ready`, plus the elapsed-time condition), then
`RemoveAtSwap(0, RemoveCount)` — which removes the first `RemoveCount` entries
of the array (back-filling from the end), i.e. the survivors are exactly the
entries from index `RemoveCount` on. -/
def checkUnreplicatedActors (ready : Nat → Bool) (timeElapsed : ℚ)
    (l : List Nat) : List Nat :=
  let removeCount :=
    (l.filter fun c => ready c && decide (timeElapsed > minimumCloneReplicationTime)).length
  l.drop removeCount

/-- One invocation of the clone-readiness timer callback: update the pending
list; when it becomes empty, clear the timer and issue
`MulticastSetSelectedComponents(SelectedComponents)` (the `Bool` result). -/
def checkUnrepStep (ready : Nat → Bool) (timeElapsed : ℚ) (l : List Nat) :
    List Nat × Bool :=
  let l1 := checkUnreplicatedActors ready timeElapsed l
  (l1, l1.isEmpty)

/-- First-occurrence deduplication, as performed by the `TSet<AActor*>
actorsProcessed` guard in `CloneActors`. -/
def firstDedupAux (seen : List Nat) : List Nat → List Nat
  | [] => []
  | a :: l =>
    if a ∈ seen then firstDedupAux seen l
    else a :: firstDedupAux (a :: seen) l

/-- `UTransformerComponent::CloneActors`: spawn one copy per distinct template
actor; the fresh clones' root components are given ids `freshBase`,
`freshBase + 1`, ... -/
def cloneActors (freshBase : Nat) (actors : List Nat) : List Nat :=
  (List.range (firstDedupAux [] actors).length).map fun i => freshBase + i

/-- The per-component duplication of `CloneComponents` seen as the produced
clone ids (the reparenting pass is modelled separately by `attachTarget`). -/
def cloneComponentIds (freshBase : Nat) (comps : List Nat) : List Nat :=
  (List.range comps.length).map fun i => freshBase + i

/-- `UTransformerComponent::CloneFromList`: actor-based mode clones the owning
actors of the listed components, component-based mode clones the components
themselves. -/
def cloneFromList (s : CState) (comps : List Nat) (freshBase : Nat) :
    List Nat :=
  if s.bComponentBased then cloneComponentIds freshBase comps
  else cloneActors freshBase (comps.map s.ownerOf)

/-- `UTransformerComponent::ServerCloneSelected_Implementation`: in
component-based mode log a warning and return with no effect at all; otherwise
clone the selected list and, when `bSelectNewClones`, select the clones,
record them as `UnreplicatedComponentClones` and start the readiness timer
(if not already running). -/
def serverCloneSelected (s : CState) (freshBase : Nat)
    (selectNewClones append : Bool) : CState :=
  if s.bComponentBased then s
  else
    let cloneList := cloneFromList s s.selectedComponents freshBase
    if selectNewClones then
      let s1 := (selectMultipleComponents s (cloneList.map some) append).1
      { s1 with
          unreplicatedComponentClones := cloneList,
          checkUnrepTimerActive := true }
    else s

/-- A node of the attachment graph after `CloneComponents`: an original
component or the clone of one. -/
inductive CNode
  | orig (c : Nat)
  | cl (c : Nat)
deriving DecidableEq

/-- The `while (1)` walk of the reparenting pass of `CloneComponents`, with
explicit fuel: starting from the original parent `P` (not itself cloned),
climb the original hierarchy; reaching the root attaches back to the original
parent `P` (`parent = cp.Value`), while finding a cloned ancestor attaches to
that ancestor's clone. -/
def walkUp (par : Nat → Nat) (r : Nat) (cloned : Nat → Bool) :
    Nat → Nat → Nat → Option CNode
  | 0, _, _ => none
  | fuel + 1, P, cur =>
    if cur = r then some (CNode.orig P)
    else if cloned (par cur) then some (CNode.cl (par cur))
    else walkUp par r cloned fuel P (par cur)

/-- The `CcOp` entry recorded for the clone of `x` during the duplication
phase: the root component maps to the root itself, every other component to
its original attach parent. -/
def origParentOf (par : Nat → Nat) (r x : Nat) : Nat :=
  if x = r then r else par x

/-- The attachment target the reparenting pass of `CloneComponents` computes
for the clone of `x`: if the recorded original parent `P` was itself cloned,
attach to that clone unless it is this very clone (`*cloneParent != cp.Key`,
which happens exactly for the root's clone — it then keeps the original root);
otherwise run the upward walk.  `d` is the depth function of the original
hierarchy, used only to size the walk's fuel. -/
def attachTarget (par : Nat → Nat) (r : Nat) (cloned : Nat → Bool)
    (d : Nat → Nat) (x : Nat) : Option CNode :=
  let P := origParentOf par r x
  if cloned P then
    if P = x then some (CNode.orig P) else some (CNode.cl P)
  else walkUp par r cloned (d P + 1) P P

/-- The attachment graph after the reparenting pass: originals keep their
original parents, the clone of `x` hangs below `attachTarget x`. -/
def newParent (par : Nat → Nat) (r : Nat) (cloned : Nat → Bool)
    (d : Nat → Nat) : CNode → Option CNode
  | CNode.orig x => if x = r then none else some (CNode.orig (par x))
  | CNode.cl x => attachTarget par r cloned d x

/-- Ranking of attachment-graph nodes used to show acyclicity: originals rank
below their clones at equal depth. -/
def nodeMeasure (d : Nat → Nat) : CNode → Nat
  | CNode.orig x => 2 * d x
  | CNode.cl x => 2 * d x + 1

/-- The selection-set mutations of the source, as an operation alphabet:
`sel` is `AddComponent_Internal`, `desel` is `DeselectComponent_Internal`. -/
inductive SelOp
  | sel (c : Nat)
  | desel (c : Nat)
deriving DecidableEq

/-- Apply one selection-set operation to the list. -/
def applyOp (toggle : Bool) (l : List Nat) : SelOp → List Nat
  | SelOp.sel c => (addComponentInternal toggle l c).1
  | SelOp.desel c => (deselectComponentInternal l c).1

/-- Apply a sequence of selection-set operations. -/
def applyOps (toggle : Bool) (l : List Nat) (ops : List SelOp) : List Nat :=
  ops.foldl (applyOp toggle) l

/-- Reference membership semantics for a single object `x`: a `sel` of an
absent object makes it present, a `sel` of a present object removes it under
the toggle policy (and leaves it otherwise), a `desel` removes it. -/
def refStep (toggle : Bool) (x : Nat) (b : Bool) : SelOp → Bool
  | SelOp.sel c =>
    if c = x then (if b then (if toggle then false else true) else true) else b
  | SelOp.desel c => if c = x then false else b

/-- Whether `x` is selected after running `ops` from the empty set, per the
reference semantics. -/
def selectedRef (toggle : Bool) (x : Nat) (ops : List SelOp) : Bool :=
  ops.foldl (refStep toggle x) false

/-- The constructor defaults of `UTransformerComponent` (selection empty, world
resolution functions trivial, `ShouldSelect` accepting — its default
implementation). -/
def defaultState : CState :=
  { selectedComponents := []
    currentDomain := ETransformationDomain.TD_None
    currentTransformation := ETransformationType.TT_Translation
    accumulatedDeltaTransform := zeroScaleIdentity
    networkDeltaTransform := zeroScaleIdentity
    bToggleSelectedInMultiSelection := true
    bComponentBased := false
    bIgnoreNonReplicatedObjects := false
    bResyncSelection := false
    resyncTimerActive := false
    unreplicatedComponentClones := []
    checkUnrepTimerActive := false
    gizmoActor := none
    gizmoDomainOf := fun _ => ETransformationDomain.TD_None
    shouldSelect := fun _ => true
    ownerOf := fun _ => 0
    rootOf := fun _ => 0 }

/-- Concrete state with two selected components, for witnesses. -/
def sWit4 : CState := { defaultState with selectedComponents := [3, 5] }

/-- Concrete component-based state, for the clone-rejection witness. -/
def sWit7 : CState := { defaultState with bComponentBased := true }

/-- Concrete state whose frame-level accumulator is not the reset value and
whose active kind is Translation. -/
def s9 : CState :=
  { defaultState with
      accumulatedDeltaTransform :=
        { rotation := Quat.identity, location := ⟨1, 0, 0⟩,
          scale3D := Vec3.zero } }

/-- Readiness schedule of the clone-readiness counterexample: clone `1` is
ready from the start, clone `0` never finishes `BeginPlay`. -/
def c1Ready : Nat → Bool := fun c => c == 1

/-- Concrete original hierarchy for the reparenting theorems: component `x`
attaches under `x - 1`, the root is `0`, depth is the id itself; components
`0` (the root) and `1` are cloned. -/
def par6 (x : Nat) : Nat := x - 1

def cloned6 (c : Nat) : Bool := decide (c ≤ 1)

def depth6 (x : Nat) : Nat := x

theorem ifBoolOr (b c : Bool) : (if b then true else c) = (b || c) := by
  cases b <;> simp

theorem selectMultipleLoop_resyncTimer (comps : List (Option Nat)) :
    ∀ (s : CState) (append bValid : Bool) (evs : List FocusEvent),
      (selectMultipleLoop s append bValid evs comps).1.resyncTimerActive
        = s.resyncTimerActive := by
  induction comps with
  | nil => intro s append bValid evs; rfl
  | cons c rest ih =>
    intro s append bValid evs
    cases c with
    | none => exact ih ..
    | some comp =>
      simp only [selectMultipleLoop]
      cases hc : s.shouldSelect comp with
      | false => simp only [hc, Bool.false_eq_true, if_false]; exact ih ..
      | true =>
        simp only [hc, if_true]
        rw [ih]
        cases append <;> rfl

theorem deselectAllLoop_self : ∀ (copy t : List Nat),
    deselectAllLoop (copy ++ t) copy = (t, copy.map FocusEvent.unfocus) := by
  intro copy
  induction copy with
  | nil => intro t; simp [deselectAllLoop]
  | cons i rest ih =>
    intro t
    simp only [List.cons_append, deselectAllLoop, deselectComponentInternal]
    rw [if_pos (by simp : i ∈ i :: (rest ++ t))]
    simp only [List.erase_cons_head]
    rw [ih t]
    simp

theorem deselectAll_spec (s : CState) :
    (deselectAll s).1 = { s with selectedComponents := [] }
    ∧ (deselectAll s).2 = s.selectedComponents.map FocusEvent.unfocus := by
  refine ⟨rfl, ?_⟩
  have h := deselectAllLoop_self s.selectedComponents []
  simp only [List.append_nil] at h
  simp [deselectAll, h]

theorem applyOp_nodup_mem (toggle : Bool) (l : List Nat) (hl : l.Nodup)
    (op : SelOp) :
    (applyOp toggle l op).Nodup
    ∧ ∀ x, decide (x ∈ applyOp toggle l op)
        = refStep toggle x (decide (x ∈ l)) op := by
  cases op with
  | sel c =>
    by_cases hc : c ∈ l
    · cases toggle with
      | false =>
        refine ⟨by simpa [applyOp, addComponentInternal, hc] using hl, fun x => ?_⟩
        by_cases hx : c = x
        · subst hx; simp [applyOp, addComponentInternal, hc, refStep]
        · simp [applyOp, addComponentInternal, hc, refStep, hx]
      | true =>
        refine ⟨by simpa [applyOp, addComponentInternal, hc] using hl.erase c,
          fun x => ?_⟩
        by_cases hx : c = x
        · subst hx
          simp [applyOp, addComponentInternal, hc, refStep, hl.mem_erase_iff]
        · simp [applyOp, addComponentInternal, hc, refStep, hx,
            hl.mem_erase_iff, Ne.symm hx]
    · refine ⟨?_, fun x => ?_⟩
      · simp [applyOp, addComponentInternal, hc, List.nodup_append, hl]
      · by_cases hx : c = x
        · subst hx; simp [applyOp, addComponentInternal, hc, refStep]
        · simp [applyOp, addComponentInternal, hc, refStep, hx, Ne.symm hx]
  | desel c =>
    by_cases hc : c ∈ l
    · refine ⟨by simpa [applyOp, deselectComponentInternal, hc] using hl.erase c,
        fun x => ?_⟩
      by_cases hx : c = x
      · subst hx
        simp [applyOp, deselectComponentInternal, hc, refStep, hl.mem_erase_iff]
      · simp [applyOp, deselectComponentInternal, hc, refStep, hx,
          hl.mem_erase_iff, Ne.symm hx]
    · refine ⟨by simpa [applyOp, deselectComponentInternal, hc] using hl,
        fun x => ?_⟩
      by_cases hx : c = x
      · subst hx; simp [applyOp, deselectComponentInternal, hc, refStep]
      · simp [applyOp, deselectComponentInternal, hc, refStep, hx]

/-- C3: for every sequence of select/deselect operations starting from the
empty Selection Set, the list `AddComponent_Internal` /
`DeselectComponent_Internal` maintain has no duplicate entries, membership
follows the add-minus-remove reference semantics (`selectedRef`, under which a
re-add of a present object never creates a second entry), and the list's
length equals the number of distinct objects currently selected. -/
theorem selectionSet_no_duplicates (toggle : Bool) (ops : List SelOp) :
    (applyOps toggle [] ops).Nodup
    ∧ (∀ x, decide (x ∈ applyOps toggle [] ops) = selectedRef toggle x ops)
    ∧ (applyOps toggle [] ops).length = (applyOps toggle [] ops).toFinset.card := by
  have main : ∀ (rest : List SelOp) (l : List Nat), l.Nodup →
      (applyOps toggle l rest).Nodup
      ∧ ∀ x, decide (x ∈ applyOps toggle l rest)
          = rest.foldl (refStep toggle x) (decide (x ∈ l)) := by
    intro rest
    induction rest with
    | nil => intro l hl; exact ⟨hl, fun x => rfl⟩
    | cons op rest2 ih =>
      intro l hl
      have step := applyOp_nodup_mem toggle l hl op
      have tail := ih (applyOp toggle l op) step.1
      refine ⟨tail.1, fun x => ?_⟩
      have h2 := tail.2 x
      simp only [applyOps, List.foldl_cons] at h2 ⊢
      rw [h2, step.2 x]
  have hmain := main ops [] List.nodup_nil
  refine ⟨hmain.1, fun x => ?_, ?_⟩
  · simpa [selectedRef] using hmain.2 x
  · exact (List.toFinset_card_of_nodup hmain.1).symm

/-- C4: re-selecting an already-selected component with `append = true` under
the toggle policy removes it from the Selection Set, firing its unfocus
notification; re-selecting it with `append = false` first clears the whole set
(unfocus on every prior member) and then adds it back, leaving exactly that
component selected with its focus notification fired last. -/
theorem selectComponent_toggle_and_replace (s : CState) (c : Nat)
    (hsel : s.shouldSelect c = true)
    (hmem : c ∈ s.selectedComponents)
    (htog : s.bToggleSelectedInMultiSelection = true) :
    ((selectComponent s (some c) true).1.selectedComponents
       = s.selectedComponents.erase c)
    ∧ ((selectComponent s (some c) true).2 = [FocusEvent.unfocus c])
    ∧ ((selectComponent s (some c) false).1.selectedComponents = [c])
    ∧ ((selectComponent s (some c) false).2
       = s.selectedComponents.map FocusEvent.unfocus ++ [FocusEvent.focus c]) := by
  have hdes := deselectAll_spec s
  refine ⟨?_, ?_, ?_, ?_⟩
  · simp [selectComponent, selectCore, hsel, addComponentInternal, hmem, htog]
  · simp [selectComponent, selectCore, hsel, addComponentInternal, hmem, htog]
  · simp only [selectComponent, selectCore, hsel, if_true, Bool.false_eq_true,
      if_false]
    rw [hdes.1]
    simp [addComponentInternal]
  · simp only [selectComponent, selectCore, hsel, if_true, Bool.false_eq_true,
      if_false]
    rw [hdes.1]
    simp [addComponentInternal, hdes.2]

/-- Witness for C4 at a concrete state: components 3 and 5 selected, toggle
policy on. -/
theorem selectComponent_toggle_and_replace_witness :
    (sWit4.shouldSelect 5 = true) ∧ (5 ∈ sWit4.selectedComponents)
    ∧ (sWit4.bToggleSelectedInMultiSelection = true)
    ∧ (((selectComponent sWit4 (some 5) true).1.selectedComponents
          = sWit4.selectedComponents.erase 5)
       ∧ ((selectComponent sWit4 (some 5) true).2 = [FocusEvent.unfocus 5])
       ∧ ((selectComponent sWit4 (some 5) false).1.selectedComponents = [5])
       ∧ ((selectComponent sWit4 (some 5) false).2
            = sWit4.selectedComponents.map FocusEvent.unfocus
              ++ [FocusEvent.focus 5])) :=
  ⟨rfl, by decide, rfl,
    selectComponent_toggle_and_replace sWit4 5 rfl (by decide) rfl⟩

/-- C5: a trace request that returns no hits with `append = false` empties the
authority's Selection Set (`DeselectAll` before the multicast), broadcasts the
empty selection, and a proxy applying that broadcast also ends with an empty
Selection Set and no resync flag — the deselect-all is replicated identically
to all participants. -/
theorem emptyTrace_deselectAll_replicated (s p : CState) :
    ((serverTraceByObjectTypes s [] false).1.selectedComponents = [])
    ∧ ((serverTraceByObjectTypes s [] false).2 = [])
    ∧ ((multicastSetSelectedComponents p []).1.selectedComponents = [])
    ∧ ((multicastSetSelectedComponents p []).1.bResyncSelection = false) :=
  ⟨rfl, rfl, rfl, rfl⟩

/-- C2: when a proxy applies `MulticastSetSelectedComponents`, the out-of-sync
flag `bResyncSelection` is set exactly when the incoming reference count
differs from the count it actually selected; the fixed-interval resync timer is
running afterwards iff the flag was just set or the timer was already running;
and each `ResyncSelection` poll tick sends `ServerSyncSelectedComponents`
exactly while the flag is set, the poll surviving exactly until a broadcast
resolves with matching counts (flag cleared), at which point the next tick
cancels the timer. -/
theorem multicast_resync_protocol (p : CState) (comps : List (Option Nat))
    (s : CState) :
    ((multicastSetSelectedComponents p comps).1.bResyncSelection
       = (comps.length
           != (multicastSetSelectedComponents p comps).1.selectedComponents.length))
    ∧ ((multicastSetSelectedComponents p comps).1.resyncTimerActive
       = ((multicastSetSelectedComponents p comps).1.bResyncSelection
           || p.resyncTimerActive))
    ∧ ((resyncSelection s).2 = s.bResyncSelection)
    ∧ ((resyncSelection s).1.resyncTimerActive
       = (s.resyncTimerActive && s.bResyncSelection)) := by
  have hsel : ((selectMultipleComponents (deselectAll p).1 comps true).1).resyncTimerActive
      = p.resyncTimerActive := by
    simpa [selectMultipleComponents] using
      selectMultipleLoop_resyncTimer comps (deselectAll p).1 true false []
  refine ⟨rfl, ?_, ?_, ?_⟩
  · show (if (comps.length
        != (selectMultipleComponents (deselectAll p).1 comps true).1.selectedComponents.length)
        then true
        else ((selectMultipleComponents (deselectAll p).1 comps true).1).resyncTimerActive)
      = _
    rw [hsel, ifBoolOr]
    rfl
  · cases h : s.bResyncSelection <;> simp [resyncSelection, h]
  · cases h : s.bResyncSelection <;> simp [resyncSelection, h]

/-- C7: a clone request handled by `ServerCloneSelected_Implementation` while
in component-based mode is rejected outright (warning log) with no state
change: no clones recorded, no selection change, no readiness timer started. -/
theorem serverCloneSelected_componentMode_noop (s : CState) (freshBase : Nat)
    (selectNewClones append : Bool) (h : s.bComponentBased = true) :
    serverCloneSelected s freshBase selectNewClones append = s := by
  simp [serverCloneSelected, h]

/-- Witness for C7 at a concrete component-based state. -/
theorem serverCloneSelected_componentMode_noop_witness :
    (sWit7.bComponentBased = true)
    ∧ serverCloneSelected sWit7 0 true false = sWit7 :=
  ⟨rfl, serverCloneSelected_componentMode_noop sWit7 0 true false rfl⟩

/-- C8: `ClearDomain` resets the frame-level snapping accumulator to the
identity transform with zero scale and clears the domain while leaving the
session-level `NetworkDeltaTransform` untouched; the network delta is reset by
`ReplicateFinishTransform` (the explicit replication-layer flush), and not by
`SetTransformationType` either. -/
theorem clearDomain_resets_frame_accumulator_only (s : CState) :
    ((clearDomain s).accumulatedDeltaTransform = zeroScaleIdentity)
    ∧ ((clearDomain s).networkDeltaTransform = s.networkDeltaTransform)
    ∧ ((clearDomain s).currentDomain = ETransformationDomain.TD_None)
    ∧ ((replicateFinishTransform s).networkDeltaTransform = zeroScaleIdentity)
    ∧ (∀ t, (setTransformationType s t).networkDeltaTransform
        = s.networkDeltaTransform) := by
  refine ⟨rfl, rfl, rfl, rfl, fun t => ?_⟩
  unfold setTransformationType
  split <;> rfl

/-- C9 counterexample: passing the currently active kind to
`SetTransformationType` hits the early return (`if (CurrentTransformation ==
TransformationType) return;`), so the accumulated delta transform is NOT
reset: the state `s9` has a non-reset accumulator and is returned unchanged. -/
theorem setTransformationType_sameKind_counterexample :
    (setTransformationType s9 ETransformationType.TT_Translation = s9)
    ∧ (s9.accumulatedDeltaTransform ≠ zeroScaleIdentity) :=
  ⟨rfl, by decide⟩

/-- C9 (amended): `SetTransformationType` resets the accumulated delta
transform for every kind different from the currently active one (also storing
the new kind and leaving the network delta alone); when the requested kind
equals the active kind the call returns early and resets nothing. -/
theorem setTransformationType_reset_amended (s : CState)
    (t : ETransformationType) (h : t ≠ s.currentTransformation) :
    ((setTransformationType s t).accumulatedDeltaTransform = zeroScaleIdentity)
    ∧ ((setTransformationType s t).currentTransformation = t)
    ∧ ((setTransformationType s t).networkDeltaTransform
        = s.networkDeltaTransform) := by
  have h2 : ¬ (s.currentTransformation = t) := fun hh => h hh.symm
  simp [setTransformationType, h2, resetDeltaTransform]

/-- Witness for the amended C9 at a concrete state and kind. -/
theorem setTransformationType_reset_amended_witness :
    (ETransformationType.TT_Rotation ≠ s9.currentTransformation)
    ∧ (((setTransformationType s9 ETransformationType.TT_Rotation).accumulatedDeltaTransform
          = zeroScaleIdentity)
       ∧ ((setTransformationType s9 ETransformationType.TT_Rotation).currentTransformation
          = ETransformationType.TT_Rotation)
       ∧ ((setTransformationType s9 ETransformationType.TT_Rotation).networkDeltaTransform
          = s9.networkDeltaTransform)) :=
  ⟨by decide,
    setTransformationType_reset_amended s9 ETransformationType.TT_Rotation
      (by decide)⟩

/-- C10: `MouseTraceByChannel` returns false on every input — even when the
deprojection and the underlying trace succeed and a selection or gizmo domain
was set — whereas `MouseTraceByObjectTypes` and `MouseTraceByProfile` return
the underlying trace result whenever the mouse deprojection succeeds. -/
theorem mouseTraceByChannel_always_false (s : CState) (mouseOk : Bool)
    (hits : List Hit) (append : Bool) :
    ((mouseTraceByChannel s mouseOk hits append).2.2 = false)
    ∧ ((mouseTraceByObjectTypes s mouseOk hits append).2.2
        = (mouseOk && (traceByObjectTypes s hits append).2.2))
    ∧ ((mouseTraceByProfile s mouseOk hits append).2.2
        = (mouseOk && (traceByProfile s hits append).2.2)) := by
  refine ⟨?_, ?_, ?_⟩ <;>
    cases mouseOk <;>
      simp only [mouseTraceByChannel, mouseTraceByObjectTypes,
        mouseTraceByProfile, Bool.false_eq_true, if_false, if_true,
        Bool.false_and, Bool.true_and] <;>
    first
      | rfl
      | (split <;> rfl)

/-- C1 (code defect evidence): `CheckUnreplicatedActors` counts the pending
clones that are ready but then removes the FIRST `RemoveCount` entries
(`RemoveAtSwap(0, RemoveCount)`), not the ready ones.  With pending clones
`[0, 1]` where clone 0 never becomes ready and clone 1 is ready (settle time
elapsed: 1 > MinimumCloneReplicationTime), the first tick drops the unready
clone 0, the second tick empties the list and fires the selection broadcast —
although clone 0 never satisfied the readiness conditions. -/
theorem checkUnreplicatedActors_broadcast_before_ready :
    (checkUnrepStep c1Ready 1 [0, 1] = ([1], false))
    ∧ (checkUnrepStep c1Ready 1 [1] = ([], true))
    ∧ (c1Ready 0 = false) := by
  have ht : decide ((1 : ℚ) > minimumCloneReplicationTime) = true := by
    rw [decide_eq_true_eq]
    norm_num [minimumCloneReplicationTime]
  refine ⟨?_, ?_, rfl⟩ <;>
    simp [checkUnrepStep, checkUnreplicatedActors, c1Ready, ht]

theorem walkUp_spec (par : Nat → Nat) (r : Nat) (cloned : Nat → Bool)
    (d : Nat → Nat) (hd : ∀ x, x ≠ r → d x = d (par x) + 1) :
    ∀ (fuel P cur : Nat), d cur < fuel → d cur ≤ d P →
      walkUp par r cloned fuel P cur = some (CNode.orig P)
      ∨ ∃ a, walkUp par r cloned fuel P cur = some (CNode.cl a) ∧ d a < d P := by
  intro fuel
  induction fuel with
  | zero => intro P cur h _; omega
  | succ n ih =>
    intro P cur hfuel hle
    by_cases hr : cur = r
    · left
      simp [walkUp, hr]
    · have hcur : d cur = d (par cur) + 1 := hd cur hr
      by_cases hc : cloned (par cur) = true
      · right
        exact ⟨par cur, by simp [walkUp, hr, hc], by omega⟩
      · have h2 := ih P (par cur) (by omega) (by omega)
        simpa [walkUp, hr, hc] using h2

theorem attachTarget_some_lt (par : Nat → Nat) (r : Nat) (cloned : Nat → Bool)
    (d : Nat → Nat) (hd : ∀ x, x ≠ r → d x = d (par x) + 1) (x : Nat) :
    ∃ t, attachTarget par r cloned d x = some t
      ∧ nodeMeasure d t < nodeMeasure d (CNode.cl x) := by
  by_cases hx : x = r
  · by_cases hc : cloned r = true
    · refine ⟨CNode.orig r, ?_, ?_⟩
      · simp [attachTarget, origParentOf, hx, hc]
      · simp only [nodeMeasure, hx]
        omega
    · refine ⟨CNode.orig r, ?_, ?_⟩
      · simp [attachTarget, origParentOf, hx, hc, walkUp]
      · simp only [nodeMeasure, hx]
        omega
  · have hdx : d x = d (par x) + 1 := hd x hx
    have hP : origParentOf par r x = par x := by simp [origParentOf, hx]
    by_cases hc : cloned (par x) = true
    · have hne : ¬ (par x = x) := by intro he; rw [he] at hdx; omega
      refine ⟨CNode.cl (par x), ?_, ?_⟩
      · simp [attachTarget, hP, hc, hne]
      · simp [nodeMeasure]; omega
    · have hwalk := walkUp_spec par r cloned d hd (d (par x) + 1) (par x)
        (par x) (by omega) (by omega)
      rcases hwalk with h1 | ⟨a, h1, h2⟩
      · refine ⟨CNode.orig (par x), ?_, ?_⟩
        · simp [attachTarget, hP, hc, h1]
        · simp [nodeMeasure]; omega
      · refine ⟨CNode.cl a, ?_, ?_⟩
        · simp [attachTarget, hP, hc, h1]
        · simp [nodeMeasure]; omega

theorem newParent_measure_lt (par : Nat → Nat) (r : Nat) (cloned : Nat → Bool)
    (d : Nat → Nat) (hd : ∀ x, x ≠ r → d x = d (par x) + 1) :
    ∀ n t, newParent par r cloned d n = some t →
      nodeMeasure d t < nodeMeasure d n := by
  intro n t h
  cases n with
  | orig x =>
    by_cases hx : x = r
    · simp [newParent, hx] at h
    · simp only [newParent, hx, if_false] at h
      injection h with h1
      subst h1
      have hdx := hd x hx
      simp [nodeMeasure]
      omega
  | cl x =>
    obtain ⟨t2, ht2, hlt⟩ := attachTarget_some_lt par r cloned d hd x
    have heq : attachTarget par r cloned d x = some t := h
    rw [ht2] at heq
    injection heq with h1
    subst h1
    exact hlt

theorem transGen_measure_lt (par : Nat → Nat) (r : Nat) (cloned : Nat → Bool)
    (d : Nat → Nat) (hd : ∀ x, x ≠ r → d x = d (par x) + 1) (a b : CNode)
    (h : Relation.TransGen
      (fun m n2 => newParent par r cloned d m = some n2) a b) :
    nodeMeasure d b < nodeMeasure d a := by
  induction h with
  | single h1 => exact newParent_measure_lt par r cloned d hd _ _ h1
  | tail h1 h2 ih =>
    exact lt_trans (newParent_measure_lt par r cloned d hd _ _ h2) ih

/-- C6 (amended): over every acyclic original hierarchy (witnessed by the
depth function `d`), the reparenting pass of `CloneComponents` terminates
(`attachTarget` is total), never attaches a clone to itself, and the resulting
attachment graph `newParent` is acyclic; a clone whose original parent was
cloned attaches to that parent's clone — including when that parent is the
root, in which case it attaches to the root's CLONE; the root's own clone
attaches to the original root; and a clone whose original parent is the
uncloned root attaches to the original root. -/
theorem cloneComponents_reparent_amended (par : Nat → Nat) (r : Nat)
    (cloned : Nat → Bool) (d : Nat → Nat)
    (hd : ∀ x, x ≠ r → d x = d (par x) + 1) :
    (∀ x, (attachTarget par r cloned d x).isSome = true)
    ∧ (∀ x, attachTarget par r cloned d x ≠ some (CNode.cl x))
    ∧ (∀ n, ¬ Relation.TransGen
        (fun m n2 => newParent par r cloned d m = some n2) n n)
    ∧ (∀ x, x ≠ r → cloned (par x) = true →
        attachTarget par r cloned d x = some (CNode.cl (par x)))
    ∧ (attachTarget par r cloned d r = some (CNode.orig r))
    ∧ (∀ x, x ≠ r → par x = r → cloned r = false →
        attachTarget par r cloned d x = some (CNode.orig r)) := by
  refine ⟨?_, ?_, ?_, ?_, ?_, ?_⟩
  · intro x
    obtain ⟨t, ht, _⟩ := attachTarget_some_lt par r cloned d hd x
    simp [ht]
  · intro x hcontra
    have hlt := newParent_measure_lt par r cloned d hd (CNode.cl x)
      (CNode.cl x) hcontra
    exact absurd hlt (lt_irrefl _)
  · intro n hcyc
    exact absurd (transGen_measure_lt par r cloned d hd n n hcyc)
      (lt_irrefl _)
  · intro x hx hc
    have hdx := hd x hx
    have hne : ¬ (par x = x) := fun he => by rw [he] at hdx; omega
    simp [attachTarget, origParentOf, hx, hc, hne]
  · by_cases hc : cloned r = true
    · simp [attachTarget, origParentOf, hc]
    · simp [attachTarget, origParentOf, hc, walkUp]
  · intro x hx hpar hc
    simp [attachTarget, origParentOf, hx, hpar, hc, walkUp]

/-- C6 counterexample: in the concrete hierarchy (root 0, child 1, both
cloned), the clone of component 1 — whose original parent IS the aggregate's
root — is attached to the CLONE of the root, not to the original root,
contradicting the claim's "attaches to the original root (never to a clone of
the root)". -/
theorem cloneComponents_rootClone_counterexample :
    (attachTarget par6 0 cloned6 depth6 1 = some (CNode.cl 0))
    ∧ (CNode.cl 0 ≠ CNode.orig 0) := by
  exact ⟨by decide, by decide⟩

/-- Witness for the amended C6 at the concrete hierarchy `par6`. -/
theorem cloneComponents_reparent_amended_witness :
    (∀ x : Nat, x ≠ 0 → depth6 x = depth6 (par6 x) + 1)
    ∧ ((∀ x, (attachTarget par6 0 cloned6 depth6 x).isSome = true)
       ∧ (∀ x, attachTarget par6 0 cloned6 depth6 x ≠ some (CNode.cl x))
       ∧ (∀ n, ¬ Relation.TransGen
            (fun m n2 => newParent par6 0 cloned6 depth6 m = some n2) n n)
       ∧ (∀ x, x ≠ 0 → cloned6 (par6 x) = true →
            attachTarget par6 0 cloned6 depth6 x = some (CNode.cl (par6 x)))
       ∧ (attachTarget par6 0 cloned6 depth6 0 = some (CNode.orig 0))
       ∧ (∀ x, x ≠ 0 → par6 x = 0 → cloned6 0 = false →
            attachTarget par6 0 cloned6 depth6 x = some (CNode.orig 0))) :=
  ⟨fun x hx => by simp only [depth6, par6]; omega,
   cloneComponents_reparent_amended par6 0 cloned6 depth6
     (fun x hx => by simp only [depth6, par6]; omega)⟩
